import Mathlib

/-
Shallow embedding of the core of the `school_canteen_menu` Home Assistant
integration (files `coordinator.py`, `models.py`, `const.py`,
`config_flow.py`), together with theorems settling the specification
claims about rotation-week resolution, menu selection, closure
classification, day-plan building, next-service-day search and CSV menu
parsing.

Modelling conventions:
* A calendar date is its day number (an `Int`): the number of days since
  1970-01-01.  `daysFromCivil` converts a Gregorian `(year, month, day)`
  triple to that number (standard civil-from-days algorithm, valid for
  year >= 1, which covers every date appearing in the claims), and
  `pyWeekday` is Python's `date.weekday()` (Monday = 0 ... Sunday = 6);
  1970-01-01 was a Thursday, hence the `+ 3`.
* Python string-keyed dicts holding string values are association lists
  (`StrMap`) with Python's insert-or-replace update (`dictInsert`); the
  nested menu structure keyed by stringified integers (`menu_data[str(week)]
  [str(day)]`) is keyed here directly by the integers, which is faithful
  because `str` is injective on integers and every lookup uses a
  stringified integer key.
* The coordinator's `_restarts` dict (`dict[date, int]`) is represented by
  its association list; `_get_current_week` sorts the keys before use, so
  a list of pairs sorted by `List.mergeSort` on the date component models
  `sorted(self._restarts.keys())` followed by dict lookups.
-/

namespace SchoolCanteen

/-- Day number of a Gregorian date, counted from 1970-01-01 (civil-from-days
algorithm, restricted to year >= 1). -/
def daysFromCivil (y m d : Nat) : Int :=
  let ys : Nat := if m ≤ 2 then y - 1 else y
  let era := ys / 400
  let yoe := ys % 400
  let mp := (m + 9) % 12
  let doy := (153 * mp + 2) / 5 + d - 1
  let doe := yoe * 365 + yoe / 4 - yoe / 100 + doy
  (era * 146097 + doe : Int) - 719468

/-- Python's `date.weekday()`: Monday = 0 ... Sunday = 6.  1970-01-01 was a
Thursday (weekday 3). -/
def pyWeekday (t : Int) : Int := (t + 3).emod 7

/-- The `WEEKDAY_TO_CSV` table of `const.py`: Python weekday (0 = Monday) to
CSV day number (1 = Monday ... 7 = Sunday).  The dict has keys 0..6 only;
other arguments (never produced by `pyWeekday`) map to 0. -/
def WEEKDAY_TO_CSV (w : Int) : Int :=
  if w = 0 then 1 else if w = 1 then 2 else if w = 2 then 3
  else if w = 3 then 4 else if w = 4 then 5 else if w = 5 then 6
  else if w = 6 then 7 else 0

/-- The `WEEKDAY_NAMES` table of `const.py`, read with
`WEEKDAY_NAMES.get(day_number, "Unknown")`. -/
def WEEKDAY_NAMES (d : Int) : String :=
  if d = 1 then "Monday" else if d = 2 then "Tuesday"
  else if d = 3 then "Wednesday" else if d = 4 then "Thursday"
  else if d = 5 then "Friday" else if d = 6 then "Saturday"
  else if d = 7 then "Sunday" else "Unknown"

/-- Python's `str.strip()` on a cell: drop leading and trailing whitespace
(list-structural, so concrete instances evaluate in the kernel). -/
def pyStrip (s : String) : String :=
  ⟨((s.data.dropWhile Char.isWhitespace).reverse.dropWhile
    Char.isWhitespace).reverse⟩

/-- Python's `str.lower()` on a header cell (ASCII lowering, which covers
the anchor column names). -/
def pyLower (s : String) : String := ⟨s.data.map Char.toLower⟩

/-- A Python `dict[str, str]` as an association list in insertion order. -/
abbrev StrMap := List (String × String)

/-- Dict read: first binding of the key, if any. -/
def lookupStr (m : StrMap) (k : String) : Option String :=
  (m.find? (fun p => p.1 == k)).map (fun p => p.2)

/-- Python dict write `m[k] = v`: replace the existing binding in place, or
append a new one. -/
def dictInsert (m : StrMap) (k v : String) : StrMap :=
  if m.any (fun p => p.1 == k) then
    m.map (fun p => if p.1 == k then (k, v) else p)
  else m ++ [(k, v)]

/-- Integer-keyed dict read (used for `menu_data[str(week)]` /
`week_data[str(day)]`). -/
def lookupKey {α : Type} (m : List (Int × α)) (k : Int) : Option α :=
  (m.find? (fun p => p.1 == k)).map (fun p => p.2)

/-- Integer-keyed dict write. -/
def dictInsertKey {α : Type} (m : List (Int × α)) (k : Int) (v : α) :
    List (Int × α) :=
  if m.any (fun p => p.1 == k) then
    m.map (fun p => if p.1 == k then (k, v) else p)
  else m ++ [(k, v)]

/-- `MealData` of `models.py`. -/
structure MealData where
  value : Option String
  attributes : Option StrMap
deriving Repr, DecidableEq

/-- The classmethod `MealData.from_dict` of `models.py`: `None` (or an empty
dict, which is falsy) gives no meal; otherwise `value` is the dict's
`"value"` entry and `attributes` collects every other entry (or `None` when
there are none). -/
def MealData.from_dict (data : Option StrMap) : Option MealData :=
  match data with
  | none => none
  | some d =>
    if d.isEmpty then none
    else
      let value := lookupStr d "value"
      let attributes := d.filter (fun p => p.1 ≠ "value")
      some ⟨value, if attributes.isEmpty then none else some attributes⟩

/-- One parsed day entry as stored by `parse_csv_menu` under
`menu_data[week][day]`: the dict with keys `day_attrs`, `main_course`,
`second_course`, `side`, `fruit`. -/
structure DayDict where
  day_attrs : StrMap
  main_course : Option StrMap
  second_course : Option StrMap
  side : Option StrMap
  fruit : Option StrMap
deriving Repr, DecidableEq

/-- `day_data.get(meal_type)` in `_get_meal_for_date`: dynamic lookup of one
of the four meal keys (any other key is absent, giving `None`). -/
def DayDict.getMeal (d : DayDict) (meal_type : String) : Option StrMap :=
  if meal_type = "main_course" then d.main_course
  else if meal_type = "second_course" then d.second_course
  else if meal_type = "side" then d.side
  else if meal_type = "fruit" then d.fruit
  else none

/-- A week's schedule: CSV day number to day entry. -/
abbrev WeekDict := List (Int × DayDict)

/-- A menu's schedule: week number to week schedule. -/
abbrev MenuData := List (Int × WeekDict)

/-- `MenuInfo` of `models.py`. -/
structure MenuInfo where
  menu_id : String
  menu_name : String
  effective_date : Int
  total_weeks : Int
  menu_data : MenuData
deriving Repr, DecidableEq

/-- `ClosurePeriod` of `models.py` (`end` is a Lean keyword, so the field is
named `endD`). -/
structure ClosurePeriod where
  start : Int
  endD : Int
deriving Repr, DecidableEq

/-- `ClosurePeriod.contains` of `models.py`: inclusive bounds
`start <= check_date <= end`. -/
def ClosurePeriod.contains (p : ClosurePeriod) (check_date : Int) : Bool :=
  decide (p.start ≤ check_date ∧ check_date ≤ p.endD)

/-- The coordinator's configuration state after `async_setup`:
`_start_date`, `_start_week`, `_menus` (sorted by effective date by
`_load_menus`), `_closure_periods` and `_restarts` (a date-to-week dict,
kept as an association list). -/
structure Coordinator where
  start_date : Int
  start_week : Int
  menus : List MenuInfo
  closure_periods : List ClosurePeriod
  restarts : List (Int × Int)
deriving Repr, DecidableEq

/-- The loop of `_get_menu_for_date`: scan the (sorted) menus, remembering
the last one with `effective_date <= check_date`, stopping at the first
later one. -/
def get_menu_for_date_loop (active : Option MenuInfo) (menus : List MenuInfo)
    (check_date : Int) : Option MenuInfo :=
  match menus with
  | [] => active
  | m :: rest =>
    if m.effective_date ≤ check_date then
      get_menu_for_date_loop (some m) rest check_date
    else active

/-- `_get_menu_for_date` of `coordinator.py`. -/
def Coordinator.get_menu_for_date (c : Coordinator) (check_date : Int) :
    Option MenuInfo :=
  get_menu_for_date_loop none c.menus check_date

/-- `_is_closed` of `coordinator.py`: weekends (`weekday() >= 5`) are always
closed, otherwise any closure period containing the date closes it. -/
def Coordinator.is_closed (c : Coordinator) (check_date : Int) : Bool :=
  if pyWeekday check_date ≥ 5 then true
  else c.closure_periods.any (fun p => p.contains check_date)

/-- The restart-selection loop of `_get_current_week`: walk the date-sorted
restart list, keeping the last entry with date `<= check_date`, stopping at
the first later one; `anchor` is the current
`(effective_start_date, effective_start_week)` pair. -/
def findAnchor (sorted_restarts : List (Int × Int)) (check_date : Int)
    (anchor : Int × Int) : Int × Int :=
  match sorted_restarts with
  | [] => anchor
  | (rd, w) :: rest =>
    if rd ≤ check_date then findAnchor rest check_date (rd, w) else anchor

/-- The week computation of `_get_current_week` (lines 144-167 of
`coordinator.py`), parameterized by the governing menu's `total_weeks`:
pick the effective anchor from the sorted restarts, align both dates to the
Monday of their week, floor-divide the day difference by 7 (Python `//`)
and wrap with Python `%` (floor modulo, `Int.fmod`). -/
def resolve_week (start_date : Int) (start_week : Int)
    (restarts : List (Int × Int)) (check_date : Int) (total_weeks : Int) :
    Int :=
  let sorted_restarts := restarts.mergeSort (fun a b => decide (a.1 ≤ b.1))
  let anchor := findAnchor sorted_restarts check_date (start_date, start_week)
  let start_monday := anchor.1 - pyWeekday anchor.1
  let check_monday := check_date - pyWeekday check_date
  let weeks_diff := (check_monday - start_monday).fdiv 7
  ((anchor.2 - 1 + weeks_diff).fmod total_weeks) + 1

/-- `_get_current_week` of `coordinator.py`: 1 when no menu governs the
date, otherwise the rotation computation with the governing menu's
`total_weeks`. -/
def Coordinator.get_current_week (c : Coordinator) (check_date : Int) : Int :=
  match c.get_menu_for_date check_date with
  | none => 1
  | some menu =>
    resolve_week c.start_date c.start_week c.restarts check_date
      menu.total_weeks

/-- `_get_day_data` of `coordinator.py`: the day-level attributes for an
open date governed by a menu, read from the parsed schedule. -/
def Coordinator.get_day_data (c : Coordinator) (check_date : Int) : StrMap :=
  if c.is_closed check_date then []
  else
    match c.get_menu_for_date check_date with
    | none => []
    | some menu =>
      let week := c.get_current_week check_date
      let day_number := WEEKDAY_TO_CSV (pyWeekday check_date)
      let week_data := (lookupKey menu.menu_data week).getD []
      match lookupKey week_data day_number with
      | some day_data => day_data.day_attrs
      | none => []

/-- `_get_meal_for_date` of `coordinator.py`. -/
def Coordinator.get_meal_for_date (c : Coordinator) (check_date : Int)
    (meal_type : String) : Option MealData :=
  if c.is_closed check_date then none
  else
    match c.get_menu_for_date check_date with
    | none => none
    | some menu =>
      let week := c.get_current_week check_date
      let day_number := WEEKDAY_TO_CSV (pyWeekday check_date)
      let week_data := (lookupKey menu.menu_data week).getD []
      match lookupKey week_data day_number with
      | some day_data => MealData.from_dict (day_data.getMeal meal_type)
      | none => none

/-- `_get_menu_name_for_date` of `coordinator.py`. -/
def Coordinator.get_menu_name_for_date (c : Coordinator) (check_date : Int) :
    String :=
  match c.get_menu_for_date check_date with
  | some menu => menu.menu_name
  | none => "Unknown"

/-- The bounded scan of `_get_next_valid_date`: up to `fuel` consecutive
dates starting at `check_date`, returning the first open one. -/
def next_valid_loop (c : Coordinator) (check_date : Int) (fuel : Nat) :
    Option Int :=
  match fuel with
  | 0 => none
  | n + 1 =>
    if c.is_closed check_date then next_valid_loop c (check_date + 1) n
    else some check_date

/-- `_get_next_valid_date` of `coordinator.py`: first open date among the 30
dates after `from_date`, else `None`. -/
def Coordinator.get_next_valid_date (c : Coordinator) (from_date : Int) :
    Option Int :=
  next_valid_loop c (from_date + 1) 30

/-- `DayMenuData` of `models.py`. -/
structure DayMenuData where
  date : Int
  week : Int
  day_number : Int
  day_name : String
  menu_name : String
  is_closed : Bool
  day_attrs : StrMap
  main_course : Option MealData
  second_course : Option MealData
  side : Option MealData
  fruit : Option MealData
deriving Repr, DecidableEq

/-- `_build_day_menu_data` of `coordinator.py`. -/
def Coordinator.build_day_menu_data (c : Coordinator) (check_date : Int) :
    DayMenuData :=
  let is_closed := c.is_closed check_date
  let week := c.get_current_week check_date
  let day_number := WEEKDAY_TO_CSV (pyWeekday check_date)
  let day_name := WEEKDAY_NAMES day_number
  let menu_name := c.get_menu_name_for_date check_date
  let day_attrs := if is_closed then [] else c.get_day_data check_date
  { date := check_date
    week := week
    day_number := day_number
    day_name := day_name
    menu_name := menu_name
    is_closed := is_closed
    day_attrs := day_attrs
    main_course :=
      if is_closed then none else c.get_meal_for_date check_date "main_course"
    second_course :=
      if is_closed then none
      else c.get_meal_for_date check_date "second_course"
    side := if is_closed then none else c.get_meal_for_date check_date "side"
    fruit :=
      if is_closed then none else c.get_meal_for_date check_date "fruit" }

/-- The `total_weeks` field computed by `_async_update_data` (line 271 of
`coordinator.py`): the governing menu's cycle length, or 4 when no menu
governs today. -/
def Coordinator.update_data_total_weeks (c : Coordinator) (today : Int) :
    Int :=
  match c.get_menu_for_date today with
  | some menu => menu.total_weeks
  | none => 4

/-
CSV menu parser (`parse_csv_menu` of `config_flow.py`).  The input is the
list of CSV records (each a list of cell strings), i.e. the output of
Python's `csv.reader`; a blank line yields the empty record.  The three
`ValueError`s the function can raise are distinguished by `ParseError`
(the spec names the header errors `SchemaError` and the empty-input error
`EmptyMenuError`).
-/

/-- The errors raised by `parse_csv_menu`: `"Empty CSV file"`,
`"Missing required column: ..."` and the column-order error. -/
inductive ParseError where
  | emptyFile : ParseError
  | missingColumn : String → ParseError
  | badOrder : ParseError
deriving Repr, DecidableEq

/-- CSV anchor column names from `const.py`. -/
def CSV_COL_WEEK_NUMBER : String := "week_number"

/-- CSV anchor column name `week_day`. -/
def CSV_COL_WEEK_DAY : String := "week_day"

/-- CSV anchor column name `main_course`. -/
def CSV_COL_MAIN_COURSE : String := "main_course"

/-- CSV anchor column name `second_course`. -/
def CSV_COL_SECOND_COURSE : String := "second_course"

/-- CSV anchor column name `side`. -/
def CSV_COL_SIDE : String := "side"

/-- CSV anchor column name `fruit`. -/
def CSV_COL_FRUIT : String := "fruit"

/-- Tail of a Python decimal integer literal: digits, with single
underscores allowed between digits. -/
def intBodyRest : List Char → Bool
  | [] => true
  | c :: rest =>
    if c.isDigit then intBodyRest rest
    else if c = '_' then
      match rest with
      | d :: rest2 => d.isDigit && intBodyRest rest2
      | [] => false
    else false

/-- A Python decimal integer literal body: a nonempty digit sequence with
single underscores allowed between digits. -/
def intBody : List Char → Bool
  | [] => false
  | c :: rest => c.isDigit && intBodyRest rest

/-- Numeric value of a digit string (underscores removed beforehand). -/
def digitsVal (cs : List Char) : Nat :=
  cs.foldl (fun acc c => acc * 10 + (c.toNat - 48)) 0

/-- Python's `int(s)` on an already-stripped string: optional sign, then a
digit sequence with single underscores between digits; `none` models the
`ValueError` (base-10 only, as used by the parser). -/
def pyInt? (s : String) : Option Int :=
  match s.data with
  | '-' :: rest =>
    if intBody rest then some (-(digitsVal (rest.filter (fun c => c ≠ '_')) : Int))
    else none
  | '+' :: rest =>
    if intBody rest then some ((digitsVal (rest.filter (fun c => c ≠ '_')) : Int))
    else none
  | cs =>
    if intBody cs then some ((digitsVal (cs.filter (fun c => c ≠ '_')) : Int))
    else none

/-- The six anchor column indices found in the header. -/
structure ColIdx where
  week_number_idx : Nat
  week_day_idx : Nat
  main_course_idx : Nat
  second_course_idx : Nat
  side_idx : Nat
  fruit_idx : Nat
deriving Repr, DecidableEq

/-- Header analysis of `parse_csv_menu` (on the already-normalized header):
`header.index(...)` for each anchor (first occurrence; a missing anchor
raises, reported with the column name), then the strict left-to-right
order check. -/
def headerCols (header : List String) : Except ParseError ColIdx :=
  match header.findIdx? (fun h => h == CSV_COL_WEEK_NUMBER) with
  | none => .error (.missingColumn CSV_COL_WEEK_NUMBER)
  | some week_number_idx =>
  match header.findIdx? (fun h => h == CSV_COL_WEEK_DAY) with
  | none => .error (.missingColumn CSV_COL_WEEK_DAY)
  | some week_day_idx =>
  match header.findIdx? (fun h => h == CSV_COL_MAIN_COURSE) with
  | none => .error (.missingColumn CSV_COL_MAIN_COURSE)
  | some main_course_idx =>
  match header.findIdx? (fun h => h == CSV_COL_SECOND_COURSE) with
  | none => .error (.missingColumn CSV_COL_SECOND_COURSE)
  | some second_course_idx =>
  match header.findIdx? (fun h => h == CSV_COL_SIDE) with
  | none => .error (.missingColumn CSV_COL_SIDE)
  | some side_idx =>
  match header.findIdx? (fun h => h == CSV_COL_FRUIT) with
  | none => .error (.missingColumn CSV_COL_FRUIT)
  | some fruit_idx =>
  if week_number_idx < week_day_idx ∧ week_day_idx < main_course_idx ∧
      main_course_idx < second_course_idx ∧ second_course_idx < side_idx ∧
      side_idx < fruit_idx then
    .ok ⟨week_number_idx, week_day_idx, main_course_idx, second_course_idx,
      side_idx, fruit_idx⟩
  else .error .badOrder

/-- The `min_required` row width of `parse_csv_menu`
(`max(indices) + 1`). -/
def minRequired (ci : ColIdx) : Nat :=
  max (max (max (max (max ci.week_number_idx ci.week_day_idx)
    ci.main_course_idx) ci.second_course_idx) ci.side_idx) ci.fruit_idx + 1

/-- Cell access `row[i]` where the source guards with `len(row) > i` (or has
established `len(row) >= min_required`); out of range gives `""`. -/
def getCell (row : List String) (i : Nat) : String := row.getD i ""

/-- The attribute-extraction loops of `parse_csv_menu`: for the attribute
column names `attrs` starting at column `base`, record each nonempty
stripped cell under its column name (dict update, so a duplicated column
name keeps the last value). -/
def extractAttrs (row : List String) (base : Nat) (attrs : List String) :
    StrMap :=
  attrs.enum.foldl (fun acc p =>
    let attr_idx := base + p.1
    if row.length > attr_idx ∧ pyStrip (getCell row attr_idx) ≠ "" then
      dictInsert acc p.2 (pyStrip (getCell row attr_idx))
    else acc) []

/-- The inner `build_course_data` helper of `parse_csv_menu`: `None` for an
empty value, otherwise the dict `{"value": value}` extended with the
course's nonempty attribute cells. -/
def build_course_data (row : List String) (value : String) (base_idx : Nat)
    (attrs : List String) : Option StrMap :=
  if value = "" then none
  else
    some (attrs.enum.foldl (fun acc p =>
      let course_attr_idx := base_idx + 1 + p.1
      if row.length > course_attr_idx ∧
          pyStrip (getCell row course_attr_idx) ≠ "" then
        dictInsert acc p.2 (pyStrip (getCell row course_attr_idx))
      else acc) [("value", value)])

/-- The nested dict update
`menu_data.setdefault(str(week), {})[str(day)] = dd` performed at the end
of a valid row. -/
def setDay (menu_data : MenuData) (week day : Int) (dd : DayDict) :
    MenuData :=
  match lookupKey menu_data week with
  | none => menu_data ++ [(week, [(day, dd)])]
  | some wd => dictInsertKey menu_data week (dictInsertKey wd day dd)

/-- One iteration of the data-row loop of `parse_csv_menu`, threading
`(menu_data, max_week)`.  Mirrors the source order exactly: blank-row skip,
width check, week parse and `>= 1` check (updating `max_week` before the
day is examined), day parse and `1..7` check, then attribute and meal
extraction and the nested dict write. -/
def processRow (ci : ColIdx) (day_attrs main_course_attrs second_course_attrs
    side_attrs fruit_attrs : List String) (acc : MenuData × Int)
    (row : List String) : MenuData × Int :=
  let menu_data := acc.1
  let max_week := acc.2
  if row.isEmpty ∨ ∀ cell ∈ row, pyStrip cell = "" then acc
  else if row.length < minRequired ci then acc
  else
    match pyInt? (pyStrip (getCell row ci.week_number_idx)) with
    | none => acc
    | some week =>
      if week < 1 then acc
      else
        let max_week2 := if week > max_week then week else max_week
        match pyInt? (pyStrip (getCell row ci.week_day_idx)) with
        | none => (menu_data, max_week2)
        | some day =>
          if day < 1 ∨ day > 7 then (menu_data, max_week2)
          else
            let day_attrs_data := extractAttrs row (ci.week_day_idx + 1) day_attrs
            let main_course_value := pyStrip (getCell row ci.main_course_idx)
            let second_course_value := pyStrip (getCell row ci.second_course_idx)
            let side_value := pyStrip (getCell row ci.side_idx)
            let fruit_value := pyStrip (getCell row ci.fruit_idx)
            let dd : DayDict :=
              { day_attrs := day_attrs_data
                main_course :=
                  build_course_data row main_course_value ci.main_course_idx
                    main_course_attrs
                second_course :=
                  build_course_data row second_course_value
                    ci.second_course_idx second_course_attrs
                side := build_course_data row side_value ci.side_idx side_attrs
                fruit :=
                  build_course_data row fruit_value ci.fruit_idx fruit_attrs }
            (setDay menu_data week day dd, max_week2)

/-- `parse_csv_menu` of `config_flow.py` on the CSV records: empty input
raises, the header is stripped and lowercased, the anchors are located and
order-checked, the attribute column-name slices are taken, every data row
is folded through `processRow`, and `total_weeks` is the accumulated
maximum week (1 when none was seen). -/
def parse_csv_menu (rows : List (List String)) :
    Except ParseError (MenuData × Int) :=
  match rows with
  | [] => .error .emptyFile
  | header_raw :: body =>
    let header := header_raw.map (fun h => pyLower (pyStrip h))
    match headerCols header with
    | .error e => .error e
    | .ok ci =>
      let day_attrs :=
        (header.drop (ci.week_day_idx + 1)).take
          (ci.main_course_idx - (ci.week_day_idx + 1))
      let main_course_attrs :=
        (header.drop (ci.main_course_idx + 1)).take
          (ci.second_course_idx - (ci.main_course_idx + 1))
      let second_course_attrs :=
        (header.drop (ci.second_course_idx + 1)).take
          (ci.side_idx - (ci.second_course_idx + 1))
      let side_attrs :=
        (header.drop (ci.side_idx + 1)).take (ci.fruit_idx - (ci.side_idx + 1))
      let fruit_attrs := header.drop (ci.fruit_idx + 1)
      let res := body.foldl
        (processRow ci day_attrs main_course_attrs second_course_attrs
          side_attrs fruit_attrs) ([], 0)
      .ok (res.1, if res.2 > 0 then res.2 else 1)

/-- The caller-side emptiness check on the parse result
(`if not self._menu_data: errors[CONF_MENU_CSV] = "invalid_csv"` in the
upload steps of `config_flow.py`): an empty parsed menu is rejected. -/
def upload_accepts_menu_data (menu_data : MenuData) : Bool :=
  !menu_data.isEmpty

/-
Spec-side definitions.  `resolve_week_spec` restates the rotation algorithm
in the specification's words, to be compared with the source-derived
`resolve_week`.  The well-formedness predicates state the invariants the
surrounding code establishes: `_load_menus` sorts the menus by effective
date, and `_restarts` is a Python dict keyed by date, canonically
represented by its key-sorted association list (keys distinct).
-/

/-- The restart dict in canonical form: association list with strictly
increasing date keys (every Python `dict[date, int]` has exactly one such
representation). -/
def RestartsWF (restarts : List (Int × Int)) : Prop :=
  List.Pairwise (fun a b => a.1 < b.1) restarts

/-- The menu list as produced by `_load_menus`: sorted by effective date
(ascending, possibly with ties). -/
def MenusWF (menus : List MenuInfo) : Prop :=
  List.Pairwise (fun a b => a.effective_date ≤ b.effective_date) menus

/-- Worded from the spec: among all restart overrides whose date is at most
`d`, the one with the latest date, if any. -/
def latestRestartAtOrBefore (restarts : List (Int × Int)) (d : Int) :
    Option (Int × Int) :=
  (restarts.filter (fun p => decide (p.1 ≤ d))).foldl
    (fun acc p =>
      match acc with
      | none => some p
      | some q => if q.1 ≤ p.1 then some p else some q) none

/-- Worded from the spec (section 4.3): take as anchor the latest restart
at or before the date (else the base anchor), align anchor and query date
to the Monday of their weeks, let `weeks_diff` be the number of 7-day
periods between the two Mondays, and return
`((anchor_week - 1 + weeks_diff) mod total_weeks) + 1` with a non-negative
(floor) modulo. -/
def resolve_week_spec (base_start_date : Int) (base_start_week : Int)
    (restarts : List (Int × Int)) (d : Int) (total_weeks : Int) : Int :=
  let anchor :=
    (latestRestartAtOrBefore restarts d).getD (base_start_date, base_start_week)
  let anchor_monday := anchor.1 - pyWeekday anchor.1
  let date_monday := d - pyWeekday d
  let weeks_diff := (date_monday - anchor_monday).fdiv 7
  ((anchor.2 - 1 + weeks_diff).emod total_weeks) + 1

/-- The six anchor column names, in their required order. -/
def anchorNames : List String :=
  [CSV_COL_WEEK_NUMBER, CSV_COL_WEEK_DAY, CSV_COL_MAIN_COURSE,
    CSV_COL_SECOND_COURSE, CSV_COL_SIDE, CSV_COL_FRUIT]

/-- Header normalization of `parse_csv_menu`: strip and lowercase every
cell. -/
def normalizeHeader (hdr : List String) : List String :=
  hdr.map (fun h => pyLower (pyStrip h))

/-- Worded from the spec: some anchor column does not occur in the
(normalized) header. -/
def missingAnchor (H : List String) : Prop :=
  ∃ a ∈ anchorNames, a ∉ H

/-- Worded from the spec: every anchor occurs in the (normalized) header
and their first occurrences are in strict left-to-right order. -/
def anchorsInOrder (H : List String) : Prop :=
  (∀ a ∈ anchorNames, a ∈ H) ∧
  H.findIdx (fun h => h == CSV_COL_WEEK_NUMBER) <
    H.findIdx (fun h => h == CSV_COL_WEEK_DAY) ∧
  H.findIdx (fun h => h == CSV_COL_WEEK_DAY) <
    H.findIdx (fun h => h == CSV_COL_MAIN_COURSE) ∧
  H.findIdx (fun h => h == CSV_COL_MAIN_COURSE) <
    H.findIdx (fun h => h == CSV_COL_SECOND_COURSE) ∧
  H.findIdx (fun h => h == CSV_COL_SECOND_COURSE) <
    H.findIdx (fun h => h == CSV_COL_SIDE) ∧
  H.findIdx (fun h => h == CSV_COL_SIDE) <
    H.findIdx (fun h => h == CSV_COL_FRUIT)

/-- The fatal parse outcomes the spec calls `SchemaError`: a missing anchor
column or misordered anchors (the empty-input error is the separate
`EmptyMenuError`). -/
def isSchemaError {α : Type} : Except ParseError α → Bool
  | .error (.missingColumn _) => true
  | .error .badOrder => true
  | _ => false

/-- The row-level problems the spec lists as non-fatal: blank row, row
shorter than the minimum required width, non-numeric or out-of-range
(below 1) week number, day number outside 1..7. -/
def rowSkipped (ci : ColIdx) (row : List String) : Prop :=
  row = [] ∨ (∀ cell ∈ row, pyStrip cell = "") ∨
  row.length < minRequired ci ∨
  pyInt? (pyStrip (getCell row ci.week_number_idx)) = none ∨
  (∃ w, pyInt? (pyStrip (getCell row ci.week_number_idx)) = some w ∧ w < 1) ∨
  pyInt? (pyStrip (getCell row ci.week_day_idx)) = none ∨
  (∃ dy, pyInt? (pyStrip (getCell row ci.week_day_idx)) = some dy ∧
    (dy < 1 ∨ 7 < dy))

/-- The `max_week` accumulation of `parse_csv_menu`, isolated: a row
contributes its week number whenever it is non-blank, wide enough, and its
week cell parses to an integer at least 1 — even if the row is later
skipped for an invalid day number. -/
def observedWeekStep (ci : ColIdx) (mw : Int) (row : List String) : Int :=
  if row.isEmpty ∨ ∀ cell ∈ row, pyStrip cell = "" then mw
  else if row.length < minRequired ci then mw
  else
    match pyInt? (pyStrip (getCell row ci.week_number_idx)) with
    | none => mw
    | some week => if week < 1 then mw else if week > mw then week else mw

/-- Claim C9 as stated: an empty parsed menu (no valid data row) comes with
`total_weeks` defaulted to 1. -/
def C9_as_stated : Prop :=
  ∀ rows md tw, parse_csv_menu rows = .ok (md, tw) → md = [] → tw = 1

/-- Claim C10 as stated: when no menu definition governs the date, the
reported week is computed by the rotation algorithm against the fallback
cycle length 4. -/
def C10_as_stated : Prop :=
  ∀ (c : Coordinator) (d : Int),
    c.get_menu_for_date d = none →
    c.get_current_week d = resolve_week c.start_date c.start_week c.restarts d 4

/-
Helper lemmas about the restart scan, the menu scan and the parser fold.
-/

/-- Sorting a canonically represented restart dict is the identity. -/
theorem mergeSort_restarts {r : List (Int × Int)} (h : RestartsWF r) :
    r.mergeSort (fun a b => decide (a.1 ≤ b.1)) = r :=
  List.mergeSort_of_sorted (h.imp fun hab => by simp [le_of_lt hab])

/-- On a key-sorted restart list, the scan-with-break returns the last
entry dated at or before the query date (or the base anchor). -/
theorem findAnchor_char (d : Int) :
    ∀ (r : List (Int × Int)), RestartsWF r → ∀ base : Int × Int,
      findAnchor r d base =
        (r.filter (fun p => decide (p.1 ≤ d))).getLastD base := by
  intro r
  induction r with
  | nil => intro _ base; simp [findAnchor]
  | cons p rest ih =>
    intro h base
    obtain ⟨rd, w⟩ := p
    obtain ⟨hp, hrest⟩ := List.pairwise_cons.mp h
    by_cases hle : rd ≤ d
    · rw [show findAnchor ((rd, w) :: rest) d base = findAnchor rest d (rd, w)
          from by simp [findAnchor, hle]]
      rw [ih hrest (rd, w),
        List.filter_cons_of_pos (by simpa using hle), List.getLastD_cons]
    · rw [show findAnchor ((rd, w) :: rest) d base = base
          from by simp [findAnchor, hle]]
      rw [List.filter_cons_of_neg (by simpa using hle)]
      rw [List.filter_eq_nil_iff.mpr ?_]
      · rfl
      · intro q hq
        have h1 : rd < q.1 := hp q hq
        have h2 : ¬(q.1 ≤ d) := fun hqd => hle ((le_of_lt h1).trans hqd)
        simpa using h2

/-- The spec-worded maximum-restart selection agrees with the last filtered
entry on a key-sorted list (fold step, starting from a known entry that is
below everything remaining). -/
theorem foldl_latest_sorted {l : List (Int × Int)}
    (hl : List.Pairwise (fun a b : Int × Int => a.1 < b.1) l) :
    ∀ q : Int × Int, (∀ p ∈ l, q.1 ≤ p.1) →
      l.foldl (fun acc p =>
        match acc with
        | none => some p
        | some q2 => if q2.1 ≤ p.1 then some p else some q2) (some q) =
      some (l.getLastD q) := by
  induction hl with
  | nil => intro q _; rfl
  | @cons p rest hp hrest ih =>
    intro q hq
    rw [List.foldl_cons]
    have hstep : (if q.1 ≤ p.1 then some p else some q) = some p :=
      if_pos (hq p (List.mem_cons_self p rest))
    rw [show (match some q with
        | none => some p
        | some q2 => if q2.1 ≤ p.1 then some p else some q2) = some p from hstep]
    rw [ih p (fun x hx => le_of_lt (hp x hx)), List.getLastD_cons]

/-- The spec-worded latest-restart selection equals the last filtered entry
on a canonically represented restart dict. -/
theorem latestRestart_char {r : List (Int × Int)} (h : RestartsWF r)
    (d : Int) (base : Int × Int) :
    (latestRestartAtOrBefore r d).getD base =
      (r.filter (fun p => decide (p.1 ≤ d))).getLastD base := by
  unfold latestRestartAtOrBefore
  have hl : List.Pairwise (fun a b : Int × Int => a.1 < b.1)
      (r.filter (fun p => decide (p.1 ≤ d))) := h.filter _
  cases hfl : r.filter (fun p => decide (p.1 ≤ d)) with
  | nil => rfl
  | cons q t =>
    rw [hfl] at hl
    obtain ⟨hq, ht⟩ := List.pairwise_cons.mp hl
    rw [List.foldl_cons]
    rw [show (match (none : Option (Int × Int)) with
        | none => some q
        | some q2 => if q2.1 ≤ q.1 then some q else some q2) = some q from rfl]
    rw [foldl_latest_sorted ht q (fun x hx => le_of_lt (hq x hx))]
    rw [List.getLastD_cons]
    rfl

/-- The week computation of the source, rewritten over the canonical
restart representation: anchor is the last restart dated at or before the
query date (or the base anchor). -/
theorem resolve_week_char (sd : Int) (sw : Int) {r : List (Int × Int)}
    (h : RestartsWF r) (d : Int) (W : Int) :
    resolve_week sd sw r d W =
      ((((r.filter (fun p => decide (p.1 ≤ d))).getLastD (sd, sw)).2 - 1 +
          ((d - pyWeekday d) -
            (((r.filter (fun p => decide (p.1 ≤ d))).getLastD (sd, sw)).1 -
              pyWeekday
                (((r.filter (fun p => decide (p.1 ≤ d))).getLastD
                  (sd, sw)).1))).fdiv 7).fmod W) + 1 := by
  simp only [resolve_week, mergeSort_restarts h, findAnchor_char d r h]

/-- C5: `is_closed(date, closure_periods)` is true iff the date's weekday
is Saturday or Sunday (index 5 or 6) or some closure period contains the
date with inclusive bounds; it is total (a Lean function), every weekend
day is closed regardless of configuration, and for the closure period
2024-12-23..2024-12-27 both endpoints are closed while 2024-12-22 and
2024-12-28 are outside the period (those two dates are a Sunday and a
Saturday, so `absent other rules` — the weekend rule — is expressed by the
period-containment test `ClosurePeriod.contains`). -/
theorem C5_is_closed_iff :
    (∀ (c : Coordinator) (d : Int),
        c.is_closed d = true ↔
          5 ≤ pyWeekday d ∨
            ∃ p ∈ c.closure_periods, p.start ≤ d ∧ d ≤ p.endD) ∧
    (∀ (c : Coordinator) (d : Int), 5 ≤ pyWeekday d → c.is_closed d = true) ∧
    Coordinator.is_closed
      ⟨0, 1, [], [⟨daysFromCivil 2024 12 23, daysFromCivil 2024 12 27⟩], []⟩
      (daysFromCivil 2024 12 23) = true ∧
    Coordinator.is_closed
      ⟨0, 1, [], [⟨daysFromCivil 2024 12 23, daysFromCivil 2024 12 27⟩], []⟩
      (daysFromCivil 2024 12 27) = true ∧
    ClosurePeriod.contains ⟨daysFromCivil 2024 12 23, daysFromCivil 2024 12 27⟩
      (daysFromCivil 2024 12 22) = false ∧
    ClosurePeriod.contains ⟨daysFromCivil 2024 12 23, daysFromCivil 2024 12 27⟩
      (daysFromCivil 2024 12 28) = false := by
  refine ⟨?_, ?_, by decide, by decide, by decide, by decide⟩
  · intro c d
    unfold Coordinator.is_closed
    by_cases h : 5 ≤ pyWeekday d
    · simp [h]
    · rw [if_neg (by omega)]
      rw [List.any_eq_true]
      constructor
      · rintro ⟨p, hp, hcont⟩
        right
        refine ⟨p, hp, ?_⟩
        simpa [ClosurePeriod.contains] using hcont
      · rintro (h5 | ⟨p, hp, h1, h2⟩)
        · exact absurd h5 h
        · exact ⟨p, hp, by simp [ClosurePeriod.contains, h1, h2]⟩
  · intro c d h
    unfold Coordinator.is_closed
    rw [if_pos (by omega)]

/-- Witness for C5 at a concrete input: 2024-12-21 is a Saturday, so it is
closed in an otherwise empty configuration. -/
theorem C5_is_closed_iff_witness :
    Coordinator.is_closed ⟨0, 1, [], [], []⟩ (daysFromCivil 2024 12 21) =
      true :=
  C5_is_closed_iff.2.1 _ _ (by decide)

/-- C6: on a closed date the built day plan has all four meal slots absent
and empty day attributes, whatever the schedule holds, while the
`is_closed`, `week`, `day_number`, `day_name` and `menu_name` fields carry
their computed values. -/
theorem C6_closed_day_fields (c : Coordinator) (d : Int)
    (h : c.is_closed d = true) :
    (c.build_day_menu_data d).main_course = none ∧
    (c.build_day_menu_data d).second_course = none ∧
    (c.build_day_menu_data d).side = none ∧
    (c.build_day_menu_data d).fruit = none ∧
    (c.build_day_menu_data d).day_attrs = [] ∧
    (c.build_day_menu_data d).is_closed = true ∧
    (c.build_day_menu_data d).week = c.get_current_week d ∧
    (c.build_day_menu_data d).day_number = WEEKDAY_TO_CSV (pyWeekday d) ∧
    (c.build_day_menu_data d).day_name =
      WEEKDAY_NAMES (WEEKDAY_TO_CSV (pyWeekday d)) ∧
    (c.build_day_menu_data d).menu_name = c.get_menu_name_for_date d := by
  unfold Coordinator.build_day_menu_data
  simp [h]

/-- Witness for C6 at a concrete input: 2024-12-21 (a Saturday) is closed
and the built day plan's meal slots are all absent. -/
theorem C6_closed_day_fields_witness :
    (Coordinator.build_day_menu_data ⟨0, 1, [], [], []⟩
      (daysFromCivil 2024 12 21)).main_course = none :=
  (C6_closed_day_fields _ _ (by decide)).1

/-- The bounded scan, when it returns a date, returns the first open date
in its window. -/
theorem next_valid_loop_some (c : Coordinator) :
    ∀ (n : Nat) (d r : Int), next_valid_loop c d n = some r →
      d ≤ r ∧ r < d + n ∧ c.is_closed r = false ∧
      ∀ e, d ≤ e → e < r → c.is_closed e = true := by
  intro n
  induction n with
  | zero => intro d r h; exact absurd h (by simp [next_valid_loop])
  | succ n ih =>
    intro d r h
    cases hc : c.is_closed d with
    | true =>
      simp only [next_valid_loop, hc, if_true] at h
      obtain ⟨h1, h2, h3, h4⟩ := ih (d + 1) r h
      refine ⟨by omega, by omega, h3, ?_⟩
      intro e he1 he2
      by_cases hed : e = d
      · rw [hed]; exact hc
      · exact h4 e (by omega) he2
    | false =>
      simp only [next_valid_loop, hc, if_false] at h
      obtain rfl : d = r := by simpa using h
      refine ⟨le_refl d, by omega, hc, ?_⟩
      intro e he1 he2
      omega

/-- The bounded scan returns nothing exactly when every date in its window
is closed. -/
theorem next_valid_loop_none (c : Coordinator) :
    ∀ (n : Nat) (d : Int), next_valid_loop c d n = none ↔
      ∀ e, d ≤ e → e < d + n → c.is_closed e = true := by
  intro n
  induction n with
  | zero =>
    intro d
    constructor
    · intro _ e he1 he2; omega
    · intro _; simp [next_valid_loop]
  | succ n ih =>
    intro d
    cases hc : c.is_closed d with
    | true =>
      rw [show next_valid_loop c d (n + 1) = next_valid_loop c (d + 1) n from
        by simp [next_valid_loop, hc]]
      rw [ih (d + 1)]
      constructor
      · intro hall e he1 he2
        by_cases hed : e = d
        · rw [hed]; exact hc
        · exact hall e (by omega) (by omega)
      · intro hall e he1 he2
        exact hall e (by omega) (by omega)
    | false =>
      rw [show next_valid_loop c d (n + 1) = some d from
        by simp [next_valid_loop, hc]]
      constructor
      · intro h; exact absurd h (by simp)
      · intro hall
        exact absurd (hall d (le_refl d) (by omega)) (by simp [hc])

/-- C7: `find_next_service_day` scans from the day after `from_date` and
returns the first open date; if every one of the 30 following dates is
closed it returns `none`; over the closure 2024-09-02..2024-09-08 (the
seven days after Sunday 2024-09-01) it returns Monday 2024-09-09, the
first open date after the closure ends. -/
theorem C7_find_next_service_day :
    (∀ (c : Coordinator) (f r : Int), c.get_next_valid_date f = some r →
        f < r ∧ r ≤ f + 30 ∧ c.is_closed r = false ∧
        ∀ e, f < e → e < r → c.is_closed e = true) ∧
    (∀ (c : Coordinator) (f : Int),
        c.get_next_valid_date f = none ↔
          ∀ e, f < e → e ≤ f + 30 → c.is_closed e = true) ∧
    Coordinator.get_next_valid_date
      ⟨0, 1, [], [⟨daysFromCivil 2024 9 2, daysFromCivil 2024 9 8⟩], []⟩
      (daysFromCivil 2024 9 1) = some (daysFromCivil 2024 9 9) := by
  refine ⟨?_, ?_, ?_⟩
  · intro c f r h
    obtain ⟨h1, h2, h3, h4⟩ := next_valid_loop_some c 30 (f + 1) r h
    exact ⟨by omega, by omega, h3, fun e he1 he2 => h4 e (by omega) he2⟩
  · intro c f
    unfold Coordinator.get_next_valid_date
    rw [next_valid_loop_none]
    constructor
    · intro hall e he1 he2; exact hall e (by omega) (by omega)
    · intro hall e he1 he2; exact hall e (by omega) (by omega)
  · decide

/-- Witness for C7 at a concrete input: the date found after the worked
closure example is open. -/
theorem C7_find_next_service_day_witness :
    Coordinator.is_closed
      ⟨0, 1, [], [⟨daysFromCivil 2024 9 2, daysFromCivil 2024 9 8⟩], []⟩
      (daysFromCivil 2024 9 9) = false :=
  (C7_find_next_service_day.1
    ⟨0, 1, [], [⟨daysFromCivil 2024 9 2, daysFromCivil 2024 9 8⟩], []⟩
    (daysFromCivil 2024 9 1) (daysFromCivil 2024 9 9) (by decide)).2.2.1

/-- On an effective-date-sorted menu list, the scan-with-break returns the
last menu whose effective date is at or before the query date (or the
incoming accumulator when none qualifies). -/
theorem menu_loop_char (d : Int) :
    ∀ (menus : List MenuInfo), MenusWF menus → ∀ active,
      get_menu_for_date_loop active menus d =
        match (menus.filter
            (fun m => decide (m.effective_date ≤ d))).getLast? with
        | some m => some m
        | none => active := by
  intro menus
  induction menus with
  | nil => intro _ active; simp [get_menu_for_date_loop]
  | cons m rest ih =>
    intro h active
    obtain ⟨hm, hrest⟩ := List.pairwise_cons.mp h
    by_cases hle : m.effective_date ≤ d
    · rw [show get_menu_for_date_loop active (m :: rest) d =
          get_menu_for_date_loop (some m) rest d from by
        simp [get_menu_for_date_loop, hle]]
      rw [ih hrest (some m), List.filter_cons_of_pos (by simpa using hle)]
      rw [List.getLast?_cons]
      cases hfl :
          (rest.filter (fun m2 => decide (m2.effective_date ≤ d))).getLast? with
      | none => simp [hfl]
      | some x => simp [hfl]
    · rw [show get_menu_for_date_loop active (m :: rest) d = active from by
        simp [get_menu_for_date_loop, hle]]
      rw [List.filter_cons_of_neg (by simpa using hle)]
      rw [List.filter_eq_nil_iff.mpr ?_]
      · rfl
      · intro q hq
        have h1 : m.effective_date ≤ q.effective_date := hm q hq
        have h2 : ¬(q.effective_date ≤ d) := fun hqd => hle (le_trans h1 hqd)
        simpa using h2

/-- In an effective-date-sorted menu list, the last element bounds every
element's effective date. -/
theorem sorted_getLast_max :
    ∀ (l : List MenuInfo),
      List.Pairwise (fun a b => a.effective_date ≤ b.effective_date) l →
      ∀ m, l.getLast? = some m →
        ∀ a ∈ l, a.effective_date ≤ m.effective_date := by
  intro l
  induction l with
  | nil => intro _ m hm; exact absurd hm (by simp)
  | cons b t ih =>
    intro h m hm a ha
    obtain ⟨hb, ht⟩ := List.pairwise_cons.mp h
    cases t with
    | nil =>
      have hbm : b = m := by simpa [List.getLast?] using hm
      have hab : a = b := by simpa using ha
      rw [hab, hbm]
    | cons c t2 =>
      rw [List.getLast?_cons_cons] at hm
      rcases List.mem_cons.mp ha with rfl | ha2
      · exact hb m (List.mem_of_mem_getLast? hm)
      · exact ih ht m hm a ha2

/-- C4: on a sorted menu list, `select_menu` returns the menu with the
greatest effective date at or before the target date and `none` when every
menu starts later; with menus effective 2024-01-01 and 2024-09-01, the
date 2024-06-01 selects the first, 2024-10-15 the second, and 2023-12-31
selects none. -/
theorem C4_select_menu :
    (∀ (c : Coordinator) (d : Int), MenusWF c.menus →
        (c.get_menu_for_date d = none ↔
          ∀ m ∈ c.menus, d < m.effective_date) ∧
        ∀ m, c.get_menu_for_date d = some m →
          m ∈ c.menus ∧ m.effective_date ≤ d ∧
          ∀ m2 ∈ c.menus, m2.effective_date ≤ d →
            m2.effective_date ≤ m.effective_date) ∧
    (∀ (mA mB : MenuInfo), mA.effective_date = daysFromCivil 2024 1 1 →
        mB.effective_date = daysFromCivil 2024 9 1 →
        ∀ (c : Coordinator), c.menus = [mA, mB] →
          c.get_menu_for_date (daysFromCivil 2024 6 1) = some mA ∧
          c.get_menu_for_date (daysFromCivil 2024 10 15) = some mB ∧
          c.get_menu_for_date (daysFromCivil 2023 12 31) = none) := by
  constructor
  · intro c d h
    unfold Coordinator.get_menu_for_date
    rw [menu_loop_char d c.menus h none]
    have hsorted :
        List.Pairwise (fun a b => a.effective_date ≤ b.effective_date)
          (c.menus.filter (fun m => decide (m.effective_date ≤ d))) :=
      List.Pairwise.filter _ h
    cases hfl :
        (c.menus.filter (fun m => decide (m.effective_date ≤ d))).getLast? with
    | none =>
      have hnil : c.menus.filter (fun m => decide (m.effective_date ≤ d)) = [] :=
        List.getLast?_eq_none_iff.mp hfl
      constructor
      · constructor
        · intro _ m hmem
          by_contra hlt
          have hin : m ∈ c.menus.filter
              (fun m2 => decide (m2.effective_date ≤ d)) :=
            List.mem_filter.mpr ⟨hmem, by simpa using le_of_not_lt hlt⟩
          rw [hnil] at hin
          exact absurd hin (by simp)
        · intro _; rfl
      · intro m hm; exact absurd hm (by simp)
    | some m =>
      constructor
      · constructor
        · intro hcontra; exact absurd hcontra (by simp)
        · intro hall
          have hmem := List.mem_of_mem_getLast? hfl
          obtain ⟨hmenus, hmd⟩ := List.mem_filter.mp hmem
          have := hall m hmenus
          have : m.effective_date ≤ d := by simpa using hmd
          omega
      · intro m2 hm2
        have hm2m : m = m2 := by simpa using hm2
        subst hm2m
        have hmem := List.mem_of_mem_getLast? hfl
        obtain ⟨hmenus, hmd⟩ := List.mem_filter.mp hmem
        refine ⟨hmenus, by simpa using hmd, ?_⟩
        intro m3 hm3 hm3d
        exact sorted_getLast_max _ hsorted m hfl m3
          (List.mem_filter.mpr ⟨hm3, by simpa using hm3d⟩)
  · intro mA mB hA hB c hc
    unfold Coordinator.get_menu_for_date
    rw [hc]
    refine ⟨?_, ?_, ?_⟩
    · rw [show get_menu_for_date_loop none [mA, mB] (daysFromCivil 2024 6 1) =
          get_menu_for_date_loop (some mA) [mB] (daysFromCivil 2024 6 1) from by
        simp only [get_menu_for_date_loop, hA]
        rw [if_pos (by decide)]]
      rw [show get_menu_for_date_loop (some mA) [mB] (daysFromCivil 2024 6 1) =
          some mA from by
        simp only [get_menu_for_date_loop, hB]
        rw [if_neg (by decide)]]
    · rw [show get_menu_for_date_loop none [mA, mB] (daysFromCivil 2024 10 15) =
          get_menu_for_date_loop (some mA) [mB] (daysFromCivil 2024 10 15) from by
        simp only [get_menu_for_date_loop, hA]
        rw [if_pos (by decide)]]
      rw [show get_menu_for_date_loop (some mA) [mB] (daysFromCivil 2024 10 15) =
          get_menu_for_date_loop (some mB) [] (daysFromCivil 2024 10 15) from by
        simp only [get_menu_for_date_loop, hB]
        rw [if_pos (by decide)]]
      rfl
    · rw [show get_menu_for_date_loop none [mA, mB] (daysFromCivil 2023 12 31) =
          none from by
        simp only [get_menu_for_date_loop, hA]
        rw [if_neg (by decide)]]

/-- Witness for C4 at concrete inputs: two concrete menus with the claimed
effective dates. -/
theorem C4_select_menu_witness :
    Coordinator.get_menu_for_date
        ⟨0, 1, [⟨"a", "Menu A", daysFromCivil 2024 1 1, 4, []⟩,
          ⟨"b", "Menu B", daysFromCivil 2024 9 1, 4, []⟩], [], []⟩
        (daysFromCivil 2024 6 1) =
      some ⟨"a", "Menu A", daysFromCivil 2024 1 1, 4, []⟩ :=
  (C4_select_menu.2 ⟨"a", "Menu A", daysFromCivil 2024 1 1, 4, []⟩
    ⟨"b", "Menu B", daysFromCivil 2024 9 1, 4, []⟩ rfl rfl
    ⟨0, 1, [⟨"a", "Menu A", daysFromCivil 2024 1 1, 4, []⟩,
      ⟨"b", "Menu B", daysFromCivil 2024 9 1, 4, []⟩], [], []⟩ rfl).1

/-- A floor-mod expression shifted by one lies in `[1, W]` for positive
`W`. -/
theorem fmod_succ_range (x W : Int) (hW : 0 < W) :
    1 ≤ x.fmod W + 1 ∧ x.fmod W + 1 ≤ W := by
  rw [Int.fmod_eq_emod _ (le_of_lt hW)]
  have h1 := Int.emod_nonneg x (by omega : W ≠ 0)
  have h2 := Int.emod_lt_of_pos x hW
  omega

/-- Shifting the query date by a whole number of cycles leaves the wrapped
week expression unchanged (arithmetic core of periodicity). -/
theorem rot_arith (a1 a2 d W : Int) (hW : 0 < W) :
    ((a2 - 1 +
        ((d + 7 * W - pyWeekday (d + 7 * W)) - (a1 - pyWeekday a1)).fdiv
          7).fmod W) + 1 =
    ((a2 - 1 + ((d - pyWeekday d) - (a1 - pyWeekday a1)).fdiv 7).fmod W) +
      1 := by
  have hwd : pyWeekday (d + 7 * W) = pyWeekday d := by
    unfold pyWeekday
    have h : d + 7 * W + 3 = (d + 3) + 7 * W := by ring
    rw [h]
    show (d + 3 + 7 * W) % 7 = (d + 3) % 7
    exact Int.add_mul_emod_self_left (d + 3) 7 W
  rw [hwd]
  have h1 : d + 7 * W - pyWeekday d - (a1 - pyWeekday a1) =
      (d - pyWeekday d - (a1 - pyWeekday a1)) + W * 7 := by ring
  rw [h1]
  rw [Int.fdiv_eq_ediv _ (by norm_num : (0 : Int) ≤ 7)]
  rw [Int.fdiv_eq_ediv _ (by norm_num : (0 : Int) ≤ 7)]
  rw [Int.add_mul_ediv_right _ _ (by norm_num : (7 : Int) ≠ 0)]
  rw [Int.fmod_eq_emod _ (le_of_lt hW), Int.fmod_eq_emod _ (le_of_lt hW)]
  have h2 : a2 - 1 + ((d - pyWeekday d - (a1 - pyWeekday a1)) / 7 + W) =
      (a2 - 1 + (d - pyWeekday d - (a1 - pyWeekday a1)) / 7) + W * 1 := by
    ring
  rw [h2]
  show (a2 - 1 + (d - pyWeekday d - (a1 - pyWeekday a1)) / 7 + W * 1) % W + 1 =
    (a2 - 1 + (d - pyWeekday d - (a1 - pyWeekday a1)) / 7) % W + 1
  rw [Int.add_mul_emod_self_left]

/-- C1: the source's week computation implements the specified algorithm —
anchor is the restart with the latest date at or before the query date
(else the base anchor), both dates are aligned to their Monday, the week
difference is floor-divided by 7 and wrapped with a non-negative modulo —
so the result lies in `[1, total_weeks]` for every date (also before the
anchor); and the worked example with base 2024-09-02 / week 1 / 4 weeks
and no restarts gives weeks 1, 2 and 4 on 2024-09-02, 2024-09-09 and
2024-10-21. -/
theorem C1_resolve_week_algorithm :
    (∀ (sd sw : Int) (r : List (Int × Int)) (d W : Int),
        RestartsWF r → 0 < W →
        resolve_week sd sw r d W = resolve_week_spec sd sw r d W ∧
        1 ≤ resolve_week sd sw r d W ∧ resolve_week sd sw r d W ≤ W) ∧
    resolve_week (daysFromCivil 2024 9 2) 1 [] (daysFromCivil 2024 9 2) 4 =
      1 ∧
    resolve_week (daysFromCivil 2024 9 2) 1 [] (daysFromCivil 2024 9 9) 4 =
      2 ∧
    resolve_week (daysFromCivil 2024 9 2) 1 [] (daysFromCivil 2024 10 21) 4 =
      4 := by
  refine ⟨?_, ?_, ?_, ?_⟩
  case refine_2 =>
    rw [resolve_week_char (daysFromCivil 2024 9 2) 1 List.Pairwise.nil
      (daysFromCivil 2024 9 2) 4]
    decide
  case refine_3 =>
    rw [resolve_week_char (daysFromCivil 2024 9 2) 1 List.Pairwise.nil
      (daysFromCivil 2024 9 9) 4]
    decide
  case refine_4 =>
    rw [resolve_week_char (daysFromCivil 2024 9 2) 1 List.Pairwise.nil
      (daysFromCivil 2024 10 21) 4]
    decide
  intro sd sw r d W hWF hW
  refine ⟨?_, ?_, ?_⟩
  · rw [resolve_week_char sd sw hWF d W]
    simp only [resolve_week_spec]
    rw [latestRestart_char hWF d (sd, sw)]
    rw [Int.fmod_eq_emod _ (le_of_lt hW)]
    rfl
  · rw [resolve_week_char sd sw hWF d W]
    exact (fmod_succ_range _ W hW).1
  · rw [resolve_week_char sd sw hWF d W]
    exact (fmod_succ_range _ W hW).2

/-- Witness for C1 at a concrete input: one restart, query after it. -/
theorem C1_resolve_week_algorithm_witness :
    resolve_week 5 2 [(3, 7)] 40 4 = resolve_week_spec 5 2 [(3, 7)] 40 4 ∧
    1 ≤ resolve_week 5 2 [(3, 7)] 40 4 ∧ resolve_week 5 2 [(3, 7)] 40 4 ≤ 4 :=
  C1_resolve_week_algorithm.1 5 2 [(3, 7)] 40 4 (by simp [RestartsWF])
    (by norm_num)

/-- C2: the restart `{2024-11-04: week 1}` makes the week of 2024-11-11
equal 2 whatever the base anchor is; and removing a restart dated strictly
after the queried date does not change the result. -/
theorem C2_restart_reset :
    (∀ (sd sw : Int),
        resolve_week sd sw [(daysFromCivil 2024 11 4, 1)]
          (daysFromCivil 2024 11 11) 4 = 2) ∧
    (∀ (sd sw : Int) (l1 l2 : List (Int × Int)) (rd w d W : Int),
        RestartsWF (l1 ++ (rd, w) :: l2) → d < rd →
        resolve_week sd sw (l1 ++ (rd, w) :: l2) d W =
          resolve_week sd sw (l1 ++ l2) d W) := by
  constructor
  · intro sd sw
    have hWF : RestartsWF [(daysFromCivil 2024 11 4, 1)] := by
      simp [RestartsWF]
    rw [resolve_week_char sd sw hWF (daysFromCivil 2024 11 11) 4,
      @List.filter_cons_of_pos _
        (fun p => decide (p.1 ≤ daysFromCivil 2024 11 11))
        (daysFromCivil 2024 11 4, 1) [] (by decide),
      List.filter_nil, List.getLastD_cons]
    decide
  · intro sd sw l1 l2 rd w d W hWF hd
    have hWF2 : RestartsWF (l1 ++ l2) :=
      List.Pairwise.sublist
        (List.Sublist.append_left (List.sublist_cons_self (rd, w) l2) l1) hWF
    have hneg : ¬((fun p : Int × Int => decide (p.1 ≤ d)) (rd, w) = true) := by
      simp only [decide_eq_true_eq]
      show ¬(rd ≤ d)
      omega
    rw [resolve_week_char sd sw hWF d W, resolve_week_char sd sw hWF2 d W,
      List.filter_append, List.filter_append,
      @List.filter_cons_of_neg _ (fun p => decide (p.1 ≤ d)) (rd, w) l2 hneg]

/-- Witness for C2 at a concrete input: dropping a restart dated after the
query date. -/
theorem C2_restart_reset_witness :
    resolve_week 0 1 ([(2, 5)] ++ (100, 3) :: []) 10 4 =
      resolve_week 0 1 ([(2, 5)] ++ []) 10 4 :=
  C2_restart_reset.2 0 1 [(2, 5)] [] 100 3 10 4 (by simp [RestartsWF])
    (by norm_num)

/-- C3: two dates exactly `total_weeks * 7` days apart, with no restart
dated after the first and at or before the second, resolve to the same
week. -/
theorem C3_periodicity (sd sw : Int) (r : List (Int × Int)) (d W : Int)
    (hWF : RestartsWF r) (hW : 0 < W)
    (hno : ∀ p ∈ r, ¬(d < p.1 ∧ p.1 ≤ d + 7 * W)) :
    resolve_week sd sw r (d + 7 * W) W = resolve_week sd sw r d W := by
  rw [resolve_week_char sd sw hWF (d + 7 * W) W,
    resolve_week_char sd sw hWF d W]
  have hfil : r.filter (fun p => decide (p.1 ≤ d + 7 * W)) =
      r.filter (fun p => decide (p.1 ≤ d)) := by
    apply List.filter_congr
    intro p hp
    have hnp := hno p hp
    rw [decide_eq_decide]
    obtain ⟨p1, p2⟩ := p
    simp only at hnp ⊢
    constructor
    · intro h1; omega
    · intro h1; omega
  rw [hfil]
  exact rot_arith _ _ d W hW

/-- Witness for C3 at a concrete input: empty restart dict, cycle of 4. -/
theorem C3_periodicity_witness :
    resolve_week 0 1 [] (10 + 7 * 4) 4 = resolve_week 0 1 [] 10 4 :=
  C3_periodicity 0 1 [] 10 4 (by simp [RestartsWF]) (by norm_num)
    (by simp)

/-- Per-row characterization of the data-row loop body: its `max_week`
component follows `observedWeekStep`; a row with a row-level problem
leaves `menu_data` unchanged; and the `menu_data` output never depends on
the incoming `max_week`. -/
theorem processRow_master (ci : ColIdx)
    (da ma sa si fa : List String) (md : MenuData) (mw : Int)
    (row : List String) :
    (processRow ci da ma sa si fa (md, mw) row).2 =
      observedWeekStep ci mw row ∧
    (rowSkipped ci row → (processRow ci da ma sa si fa (md, mw) row).1 = md) ∧
    (∀ mw' : Int, (processRow ci da ma sa si fa (md, mw) row).1 =
      (processRow ci da ma sa si fa (md, mw') row).1) := by
  by_cases h1 : (row.isEmpty ∨ ∀ cell ∈ row, pyStrip cell = "")
  · refine ⟨?_, fun _ => ?_, fun mw' => ?_⟩ <;>
      simp only [processRow, observedWeekStep, if_pos h1]
  · by_cases h2 : row.length < minRequired ci
    · refine ⟨?_, fun _ => ?_, fun mw' => ?_⟩ <;>
        simp only [processRow, observedWeekStep, if_neg h1, if_pos h2]
    · cases h3 : pyInt? (pyStrip (getCell row ci.week_number_idx)) with
      | none =>
        refine ⟨?_, fun _ => ?_, fun mw' => ?_⟩ <;>
          simp only [processRow, observedWeekStep, if_neg h1, if_neg h2, h3]
      | some week =>
        by_cases h4 : week < 1
        · refine ⟨?_, fun _ => ?_, fun mw' => ?_⟩ <;>
            simp only [processRow, observedWeekStep, if_neg h1, if_neg h2,
              h3, if_pos h4]
        · cases h5 : pyInt? (pyStrip (getCell row ci.week_day_idx)) with
          | none =>
            refine ⟨?_, fun _ => ?_, fun mw' => ?_⟩ <;>
              simp only [processRow, observedWeekStep, if_neg h1, if_neg h2,
                h3, if_neg h4, h5]
          | some day =>
            by_cases h6 : (day < 1 ∨ day > 7)
            · refine ⟨?_, fun _ => ?_, fun mw' => ?_⟩ <;>
                simp only [processRow, observedWeekStep, if_neg h1, if_neg h2,
                  h3, if_neg h4, h5, if_pos h6]
            · refine ⟨?_, ?_, fun mw' => ?_⟩
              · simp only [processRow, observedWeekStep, if_neg h1, if_neg h2,
                  h3, if_neg h4, h5, if_neg h6]
              · intro hsk
                exfalso
                rcases hsk with h | h | h | h | ⟨w2, hw2, hw2lt⟩ | h |
                    ⟨dy, hdy, hdyr⟩
                · exact h1 (Or.inl (by simp [h]))
                · exact h1 (Or.inr h)
                · exact h2 h
                · rw [h3] at h; exact Option.noConfusion h
                · rw [h3] at hw2
                  have hwk : week = w2 := by injection hw2
                  omega
                · rw [h5] at h; exact Option.noConfusion h
                · rw [h5] at hdy
                  have hdk : day = dy := by injection hdy
                  omega
              · simp only [processRow, if_neg h1, if_neg h2, h3, if_neg h4,
                  h5, if_neg h6]

/-- The `max_week` component of the whole data-row fold follows the
isolated accumulation. -/
theorem foldl_processRow_snd (ci : ColIdx) (da ma sa si fa : List String) :
    ∀ (body : List (List String)) (md : MenuData) (mw : Int),
      (body.foldl (processRow ci da ma sa si fa) (md, mw)).2 =
        body.foldl (observedWeekStep ci) mw := by
  intro body
  induction body with
  | nil => intro md mw; rfl
  | cons row rest ih =>
    intro md mw
    rw [List.foldl_cons, List.foldl_cons]
    cases hpr : processRow ci da ma sa si fa (md, mw) row with
    | mk md2 mw2 =>
      rw [ih md2 mw2]
      have h2 := (processRow_master ci da ma sa si fa md mw row).1
      rw [hpr] at h2
      simp only at h2
      rw [h2]

/-- The `menu_data` component of the data-row fold does not depend on the
incoming `max_week`. -/
theorem foldl_processRow_fst_congr (ci : ColIdx)
    (da ma sa si fa : List String) :
    ∀ (body : List (List String)) (md : MenuData) (mw mw' : Int),
      (body.foldl (processRow ci da ma sa si fa) (md, mw)).1 =
        (body.foldl (processRow ci da ma sa si fa) (md, mw')).1 := by
  intro body
  induction body with
  | nil => intro md mw mw'; rfl
  | cons row rest ih =>
    intro md mw mw'
    rw [List.foldl_cons, List.foldl_cons]
    have hfst := (processRow_master ci da ma sa si fa md mw row).2.2 mw'
    cases hpr : processRow ci da ma sa si fa (md, mw) row with
    | mk md2 mw2 =>
      cases hpr' : processRow ci da ma sa si fa (md, mw') row with
      | mk md3 mw3 =>
        rw [hpr, hpr'] at hfst
        simp only at hfst
        subst hfst
        exact ih md2 mw2 mw3

/-- The parse result's error classification is exactly the header
analysis's. -/
theorem isSchemaError_parse (hdr : List String) (body : List (List String)) :
    isSchemaError (parse_csv_menu (hdr :: body)) =
      isSchemaError (headerCols (normalizeHeader hdr)) := by
  simp only [parse_csv_menu, normalizeHeader]
  cases h : headerCols (hdr.map (fun s => pyLower (pyStrip s))) with
  | error e => cases e <;> simp [isSchemaError]
  | ok ci => simp [isSchemaError]

/-- A successful first-index search implies membership. -/
theorem mem_of_findIdx?_eq_some {H : List String} {name : String} {i : Nat}
    (h : H.findIdx? (fun s => s == name) = some i) : name ∈ H := by
  by_contra hmem
  have hnone : H.findIdx? (fun s => s == name) = none :=
    List.findIdx?_eq_none_iff.mpr (fun x hx => by
      simp only [beq_eq_false_iff_ne]
      exact fun hxn => hmem (hxn ▸ hx))
  rw [hnone] at h
  exact Option.noConfusion h

/-- A missing name makes the first-index search fail. -/
theorem findIdx?_eq_none_of_not_mem {H : List String} {name : String}
    (h : name ∉ H) : H.findIdx? (fun s => s == name) = none :=
  List.findIdx?_eq_none_iff.mpr (fun x hx => by
    simp only [beq_eq_false_iff_ne]
    exact fun hxn => h (hxn ▸ hx))

/-- A name absent from a list makes its first-index search fail, and the
header analysis classifies exactly the missing-anchor and misordered
headers as schema errors. -/
theorem not_mem_of_findIdx?_eq_none {H : List String} {name : String}
    (h : H.findIdx? (fun s => s == name) = none) : name ∉ H := by
  intro hmem
  have hx := List.findIdx?_eq_none_iff.mp h name hmem
  simp at hx

/-- The header analysis fails with a schema error exactly when an anchor
is missing from the header or the anchors' first occurrences are not in
the required strict left-to-right order. -/
theorem headerCols_char (H : List String) :
    isSchemaError (headerCols H) = true ↔
      missingAnchor H ∨ ¬ anchorsInOrder H := by
  cases s1 : H.findIdx? (fun h => h == CSV_COL_WEEK_NUMBER) with
  | none =>
    rw [show headerCols H = .error (.missingColumn CSV_COL_WEEK_NUMBER) from
      by simp [headerCols, s1]]
    exact iff_of_true rfl
      (Or.inl ⟨CSV_COL_WEEK_NUMBER, by simp [anchorNames],
        not_mem_of_findIdx?_eq_none s1⟩)
  | some i1 =>
    cases s2 : H.findIdx? (fun h => h == CSV_COL_WEEK_DAY) with
    | none =>
      rw [show headerCols H = .error (.missingColumn CSV_COL_WEEK_DAY) from
        by simp [headerCols, s1, s2]]
      exact iff_of_true rfl
        (Or.inl ⟨CSV_COL_WEEK_DAY, by simp [anchorNames],
          not_mem_of_findIdx?_eq_none s2⟩)
    | some i2 =>
      cases s3 : H.findIdx? (fun h => h == CSV_COL_MAIN_COURSE) with
      | none =>
        rw [show headerCols H =
            .error (.missingColumn CSV_COL_MAIN_COURSE) from
          by simp [headerCols, s1, s2, s3]]
        exact iff_of_true rfl
          (Or.inl ⟨CSV_COL_MAIN_COURSE, by simp [anchorNames],
            not_mem_of_findIdx?_eq_none s3⟩)
      | some i3 =>
        cases s4 : H.findIdx? (fun h => h == CSV_COL_SECOND_COURSE) with
        | none =>
          rw [show headerCols H =
              .error (.missingColumn CSV_COL_SECOND_COURSE) from
            by simp [headerCols, s1, s2, s3, s4]]
          exact iff_of_true rfl
            (Or.inl ⟨CSV_COL_SECOND_COURSE, by simp [anchorNames],
              not_mem_of_findIdx?_eq_none s4⟩)
        | some i4 =>
          cases s5 : H.findIdx? (fun h => h == CSV_COL_SIDE) with
          | none =>
            rw [show headerCols H = .error (.missingColumn CSV_COL_SIDE) from
              by simp [headerCols, s1, s2, s3, s4, s5]]
            exact iff_of_true rfl
              (Or.inl ⟨CSV_COL_SIDE, by simp [anchorNames],
                not_mem_of_findIdx?_eq_none s5⟩)
          | some i5 =>
            cases s6 : H.findIdx? (fun h => h == CSV_COL_FRUIT) with
            | none =>
              rw [show headerCols H =
                  .error (.missingColumn CSV_COL_FRUIT) from
                by simp [headerCols, s1, s2, s3, s4, s5, s6]]
              exact iff_of_true rfl
                (Or.inl ⟨CSV_COL_FRUIT, by simp [anchorNames],
                  not_mem_of_findIdx?_eq_none s6⟩)
            | some i6 =>
              have e1 := (List.findIdx?_eq_some_iff_findIdx_eq.mp s1).2
              have e2 := (List.findIdx?_eq_some_iff_findIdx_eq.mp s2).2
              have e3 := (List.findIdx?_eq_some_iff_findIdx_eq.mp s3).2
              have e4 := (List.findIdx?_eq_some_iff_findIdx_eq.mp s4).2
              have e5 := (List.findIdx?_eq_some_iff_findIdx_eq.mp s5).2
              have e6 := (List.findIdx?_eq_some_iff_findIdx_eq.mp s6).2
              by_cases hord : (i1 < i2 ∧ i2 < i3 ∧ i3 < i4 ∧ i4 < i5 ∧
                  i5 < i6)
              · rw [show headerCols H = .ok ⟨i1, i2, i3, i4, i5, i6⟩ from by
                  simp [headerCols, s1, s2, s3, s4, s5, s6, hord]]
                refine iff_of_false (by simp [isSchemaError]) ?_
                intro hcon
                rcases hcon with ⟨a, ha, hnot⟩ | hnotord
                · simp only [anchorNames, List.mem_cons,
                    List.not_mem_nil, or_false] at ha
                  rcases ha with rfl | rfl | rfl | rfl | rfl | rfl
                  · exact hnot (mem_of_findIdx?_eq_some s1)
                  · exact hnot (mem_of_findIdx?_eq_some s2)
                  · exact hnot (mem_of_findIdx?_eq_some s3)
                  · exact hnot (mem_of_findIdx?_eq_some s4)
                  · exact hnot (mem_of_findIdx?_eq_some s5)
                  · exact hnot (mem_of_findIdx?_eq_some s6)
                · apply hnotord
                  refine ⟨?_, ?_, ?_, ?_, ?_, ?_⟩
                  · intro a ha2
                    simp only [anchorNames, List.mem_cons,
                      List.not_mem_nil, or_false] at ha2
                    rcases ha2 with rfl | rfl | rfl | rfl | rfl | rfl
                    · exact mem_of_findIdx?_eq_some s1
                    · exact mem_of_findIdx?_eq_some s2
                    · exact mem_of_findIdx?_eq_some s3
                    · exact mem_of_findIdx?_eq_some s4
                    · exact mem_of_findIdx?_eq_some s5
                    · exact mem_of_findIdx?_eq_some s6
                  · rw [e1, e2]; exact hord.1
                  · rw [e2, e3]; exact hord.2.1
                  · rw [e3, e4]; exact hord.2.2.1
                  · rw [e4, e5]; exact hord.2.2.2.1
                  · rw [e5, e6]; exact hord.2.2.2.2
              · rw [show headerCols H = .error .badOrder from by
                  simp [headerCols, s1, s2, s3, s4, s5, s6, hord]]
                refine iff_of_true rfl (Or.inr ?_)
                rintro ⟨hpres, hc1, hc2, hc3, hc4, hc5⟩
                apply hord
                rw [e1, e2] at hc1
                rw [e2, e3] at hc2
                rw [e3, e4] at hc3
                rw [e4, e5] at hc4
                rw [e5, e6] at hc5
                exact ⟨hc1, hc2, hc3, hc4, hc5⟩

/-- A row with a row-level problem contributes nothing to the `menu_data`
accumulated over the remaining rows. -/
theorem parse_body_fst_skip (ci : ColIdx) (da ma sa si fa : List String)
    (row : List String) (body : List (List String))
    (h : rowSkipped ci row) :
    ((row :: body).foldl (processRow ci da ma sa si fa) ([], 0)).1 =
      (body.foldl (processRow ci da ma sa si fa) ([], 0)).1 := by
  rw [List.foldl_cons]
  cases hpr : processRow ci da ma sa si fa ([], 0) row with
  | mk md2 mw2 =>
    have hskip1 := (processRow_master ci da ma sa si fa [] 0 row).2.1 h
    rw [hpr] at hskip1
    simp only at hskip1
    subst hskip1
    exact foldl_processRow_fst_congr ci da ma sa si fa body [] mw2 0

/-- C8: parsing aborts with a schema error exactly when an anchor column is
missing from the normalized header or the anchors are misordered; with a
well-formed header the parse always succeeds, and a row with a row-level
problem (blank, too short, bad week number, bad day number) is skipped —
the resulting schedule is the one obtained from the remaining rows. -/
theorem C8_schema_and_row_errors :
    (∀ (hdr : List String) (body : List (List String)),
        isSchemaError (parse_csv_menu (hdr :: body)) = true ↔
          missingAnchor (normalizeHeader hdr) ∨
            ¬ anchorsInOrder (normalizeHeader hdr)) ∧
    (∀ (hdr : List String) (body : List (List String)) (ci : ColIdx),
        headerCols (normalizeHeader hdr) = .ok ci →
        ∃ v, parse_csv_menu (hdr :: body) = .ok v) ∧
    (∀ (hdr row : List String) (body : List (List String)) (ci : ColIdx),
        headerCols (normalizeHeader hdr) = .ok ci → rowSkipped ci row →
        Except.map Prod.fst (parse_csv_menu (hdr :: row :: body)) =
          Except.map Prod.fst (parse_csv_menu (hdr :: body))) := by
  refine ⟨?_, ?_, ?_⟩
  · intro hdr body
    rw [isSchemaError_parse hdr body]
    exact headerCols_char (normalizeHeader hdr)
  · intro hdr body ci hci
    simp only [parse_csv_menu]
    rw [show headerCols (hdr.map (fun h => pyLower (pyStrip h))) = .ok ci from by
      simpa [normalizeHeader] using hci]
    exact ⟨_, rfl⟩
  · intro hdr row body ci hci hskip
    simp only [parse_csv_menu]
    rw [show headerCols (hdr.map (fun h => pyLower (pyStrip h))) = .ok ci from by
      simpa [normalizeHeader] using hci]
    simp only [Except.map]
    exact congrArg Except.ok (parse_body_fst_skip ci _ _ _ _ _ row body hskip)

/-- Witness for C8 at a concrete input: a well-formed header followed by a
row with an out-of-range day number parses as if the row were absent. -/
theorem C8_schema_and_row_errors_witness :
    Except.map Prod.fst (parse_csv_menu
        [["week_number", "week_day", "main_course", "second_course", "side",
          "fruit"], ["2", "9", "x", "x", "x", "x"]]) =
      Except.map Prod.fst (parse_csv_menu
        [["week_number", "week_day", "main_course", "second_course", "side",
          "fruit"]]) :=
  C8_schema_and_row_errors.2.2
    ["week_number", "week_day", "main_course", "second_course", "side",
      "fruit"] ["2", "9", "x", "x", "x", "x"] [] ⟨0, 1, 2, 3, 4, 5⟩
    rfl
    (by right; right; right; right; right; right;
        exact ⟨9, by decide, by norm_num⟩)

/-- C9 as stated is false: the row `2,9,x,x,x,x` passes the week check and
raises `max_week` to 2 before being skipped for its day number 9, so the
parse yields an empty schedule with `total_weeks` 2, not the claimed
default 1. -/
theorem C9_counterexample : ¬ C9_as_stated := by
  intro h
  have h2 := h [["week_number", "week_day", "main_course", "second_course",
      "side", "fruit"], ["2", "9", "x", "x", "x", "x"]] [] 2 rfl rfl
  exact absurd h2 (by norm_num)

/-- C9 amended: `total_weeks` is the maximum week number among rows passing
the blank, width and week-number checks — including rows later skipped for
an invalid day number — and defaults to 1 when no such row exists; parsing
empty input fails with the empty-file error, and the caller rejects an
empty parsed schedule. -/
theorem C9_total_weeks_observed :
    (∀ (hdr : List String) (body : List (List String)) (ci : ColIdx),
        headerCols (normalizeHeader hdr) = .ok ci →
        ∃ md, parse_csv_menu (hdr :: body) =
          .ok (md,
            if body.foldl (observedWeekStep ci) 0 > 0 then
              body.foldl (observedWeekStep ci) 0
            else 1)) ∧
    parse_csv_menu [] = .error .emptyFile ∧
    upload_accepts_menu_data [] = false := by
  refine ⟨?_, rfl, rfl⟩
  intro hdr body ci hci
  have hci2 : headerCols (hdr.map (fun h => pyLower (pyStrip h))) = .ok ci := by
    simpa [normalizeHeader] using hci
  simp only [parse_csv_menu, hci2]
  rw [foldl_processRow_snd]
  exact ⟨_, rfl⟩

/-- Witness for C9's amended statement at a concrete input. -/
theorem C9_total_weeks_observed_witness :
    ∃ md, parse_csv_menu
        [["week_number", "week_day", "main_course", "second_course", "side",
          "fruit"], ["2", "9", "x", "x", "x", "x"]] =
      .ok (md,
        if [["2", "9", "x", "x", "x", "x"]].foldl
            (observedWeekStep ⟨0, 1, 2, 3, 4, 5⟩) 0 > 0 then
          [["2", "9", "x", "x", "x", "x"]].foldl
            (observedWeekStep ⟨0, 1, 2, 3, 4, 5⟩) 0
        else 1) :=
  C9_total_weeks_observed.1
    ["week_number", "week_day", "main_course", "second_course", "side",
      "fruit"] [["2", "9", "x", "x", "x", "x"]] ⟨0, 1, 2, 3, 4, 5⟩
    rfl

/-- C10 as stated is false: with no governing menu, the reported week is
the constant 1, not the rotation algorithm evaluated against the fallback
cycle length 4 (base anchor Monday 2024-09-02 with week 1 would give week
2 on 2024-09-09). -/
theorem C10_counterexample : ¬ C10_as_stated := by
  intro h
  have h2 := h ⟨daysFromCivil 2024 9 2, 1, [], [], []⟩ (daysFromCivil 2024 9 9)
    rfl
  rw [show Coordinator.get_current_week ⟨daysFromCivil 2024 9 2, 1, [], [], []⟩
      (daysFromCivil 2024 9 9) = 1 from rfl] at h2
  rw [show Coordinator.start_date ⟨daysFromCivil 2024 9 2, 1, [], [], []⟩ =
      daysFromCivil 2024 9 2 from rfl,
    show Coordinator.start_week ⟨daysFromCivil 2024 9 2, 1, [], [], []⟩ =
      1 from rfl,
    show Coordinator.restarts ⟨daysFromCivil 2024 9 2, 1, [], [], []⟩ =
      [] from rfl] at h2
  rw [resolve_week_char (daysFromCivil 2024 9 2) 1 List.Pairwise.nil
    (daysFromCivil 2024 9 9) 4] at h2
  exact absurd h2 (by decide)

/-- C10 amended: when no menu definition governs the date, the coordinator
reports `total_weeks` 4 as a display fallback and the constant week 1 —
the rotation algorithm is not evaluated. -/
theorem C10_no_menu_fallback (c : Coordinator) (d : Int)
    (h : c.get_menu_for_date d = none) :
    c.update_data_total_weeks d = 4 ∧ c.get_current_week d = 1 := by
  unfold Coordinator.update_data_total_weeks Coordinator.get_current_week
  rw [h]
  exact ⟨rfl, rfl⟩

/-- Witness for C10's amended statement at a concrete input. -/
theorem C10_no_menu_fallback_witness :
    Coordinator.update_data_total_weeks ⟨0, 1, [], [], []⟩ 5 = 4 ∧
    Coordinator.get_current_week ⟨0, 1, [], [], []⟩ 5 = 1 :=
  C10_no_menu_fallback ⟨0, 1, [], [], []⟩ 5 rfl

end SchoolCanteen
